import Mathlib

/-!
Verification of the trading-decision and order-execution core of the
helymenezes/bot_trade_binance repository.

The embedding translates the relevant parts of `main.py` and
`src/indicators.py` into Lean definitions:

* Python `Decimal` values are modelled by `DecNum` (a natural-number
  coefficient and an integer exponent, value `coeff * 10 ^ exp`), and exact
  quantities by `ℚ`.
* `BinanceTraderBot._calculate_buy_quantity` / `_calculate_sell_quantity`
  (main.py lines 266-326) become `calcQuantityVal` / `calcQuantityStr` and
  the wrappers `calculateBuyQuantity` / `calculateSellQuantity`.
* `BinanceTraderBot._validate_trade_quantity` (lines 328-361) becomes
  `validateTradeQuantity`.
* `buyStock` / `sellStock` (lines 196-242) become `buyStock` / `sellStock`,
  parameterised by the exchange outcome (`CallOutcome`).
* The position-reconciliation and stop-loss/take-profit portion of
  `updateAllData` (lines 112-147) becomes `updateAllData`; the retry loop
  around it (lines 109-159) becomes `retryGo` / `updateAllDataRetry`.
* One decision pass of `_run_loop` (lines 410-435) becomes `runLoopCycle`,
  and `stop` (lines 402-408) becomes `stopBot`.
* `strategy_signals` (indicators.py lines 45-73) becomes `strategy_signals`.

Floating point appears in the source only in the stop-loss percentage
computation (`float(...)` casts on line 139); it is modelled by exact
rational arithmetic.
-/

/-- Model of a non-negative Python `Decimal`: value `coeff * 10 ^ exp`.
Binance sends `stepSize` / `minQty` / `maxQty` as decimal strings such as
"0.00001000", which parse to a coefficient and an exponent. -/
structure DecNum where
  coeff : ℕ
  exp : ℤ
deriving DecidableEq, Repr

/-- Powers of ten on `ℚ` with a natural exponent, written so that the
kernel can evaluate them on concrete inputs. -/
def npow10 : ℕ → ℚ
  | 0 => 1
  | n + 1 => npow10 n * 10

/-- Powers of ten on `ℚ` with an integer exponent. -/
def zpow10 : ℤ → ℚ
  | Int.ofNat n => npow10 n
  | Int.negSucc n => 1 / npow10 (n + 1)

/-- Rational value of a `DecNum`. -/
def DecNum.val (d : DecNum) : ℚ := (d.coeff : ℚ) * zpow10 d.exp

/-- Fuel-driven helper for `Decimal.normalize`: repeatedly strips a trailing
zero digit from the coefficient, incrementing the exponent.  The fuel is an
upper bound on the number of strip steps (the initial coefficient works). -/
def stripZerosAux : ℕ → ℕ → ℤ → ℕ × ℤ
  | 0, c, e => (c, e)
  | fuel + 1, c, e =>
    if c ≠ 0 ∧ c % 10 = 0 then stripZerosAux fuel (c / 10) (e + 1) else (c, e)

/-- Model of `Decimal.normalize()` (main.py line 290): removes trailing
zeros from the coefficient; zero normalizes to coefficient 0, exponent 0. -/
def DecNum.normalize (d : DecNum) : DecNum :=
  if d.coeff = 0 then ⟨0, 0⟩
  else ⟨(stripZerosAux d.coeff d.coeff d.exp).1, (stripZerosAux d.coeff d.coeff d.exp).2⟩

/-- Model of `Decimal.quantize(step, rounding=ROUND_DOWN)` for a
non-negative argument (main.py line 292): round the value down to the
target exponent `E`, producing a decimal with exponent `E`. -/
def quantDown (x : ℚ) (E : ℤ) : DecNum := ⟨(Rat.floor (x * zpow10 (-E))).toNat, E⟩

/-- Numeric value produced by `_calculate_buy_quantity` /
`_calculate_sell_quantity` (main.py lines 290-293 and 317-319): quantize the
raw quantity down to the exponent of the normalized step size, then clamp to
at least `minQty` (`quantity_dec = max(min_qty, quantity_dec)`). -/
def calcQuantityVal (raw : ℚ) (step minQty : DecNum) : ℚ :=
  if minQty.val ≤ (quantDown raw step.normalize.exp).val
  then (quantDown raw step.normalize.exp).val else minQty.val

/-- Number of fractional digits used for formatting (main.py line 294):
`abs(normalized_step_size.as_tuple().exponent)`. -/
def calcDecimalPlaces (step : DecNum) : ℕ := step.normalize.exp.natAbs

/-- Rounding used by Python string formatting of a `Decimal`
(ROUND_HALF_EVEN). -/
def roundHalfEven (x : ℚ) : ℤ :=
  if x - Rat.floor x < 1/2 then Rat.floor x
  else if 1/2 < x - Rat.floor x then Rat.floor x + 1
  else if Rat.floor x % 2 = 0 then Rat.floor x else Rat.floor x + 1

/-- Character for a single decimal digit. -/
def digitChar (d : ℕ) : Char := Char.ofNat (48 + d % 10)

/-- Fuel-driven most-significant-first decimal digit list of a natural
number (empty for zero; the fuel `n` itself always suffices). -/
def natDigitsAux : ℕ → ℕ → List Char
  | 0, _ => []
  | fuel + 1, n =>
    if n = 0 then [] else natDigitsAux fuel (n / 10) ++ [digitChar (n % 10)]

/-- Decimal digit string of a natural number ("0" for zero). -/
def natDigitString (n : ℕ) : List Char :=
  if n = 0 then ['0'] else natDigitsAux n n

/-- Left-pad a digit list with zeros to at least `n + 1` characters, so that
a decimal point inserted `n` places from the right always has a digit in
front of it. -/
def padLeft (l : List Char) (n : ℕ) : List Char :=
  List.replicate (n + 1 - l.length) '0' ++ l

/-- Insert a decimal point `n` places from the right (no point for `n = 0`). -/
def insertDot (ds : List Char) (n : ℕ) : List Char :=
  if n = 0 then ds else ds.take (ds.length - n) ++ '.' :: ds.drop (ds.length - n)

/-- Model of Python `format(x, (dot)Nf)` for a non-negative decimal value:
render `x` with exactly `n` fractional digits (half-even rounding, as in
`Decimal.__format__`). -/
def formatFixed (x : ℚ) (n : ℕ) : String :=
  String.mk (insertDot (padLeft (natDigitString (roundHalfEven (x * npow10 n)).toNat) n) n)

/-- Number of characters after the first decimal point of a string
(0 if there is none). -/
def countFracDigits (s : String) : ℕ :=
  (((s.data.dropWhile (fun c => c != '.')).drop 1)).length

/-- Formatted quantity string produced by the quantity calculators
(main.py lines 294-295 and 320-321).  The final regular-expression check of
the source (lines 297-298) accepts every string this produces and is
therefore not modelled. -/
def calcQuantityStr (raw : ℚ) (step minQty : DecNum) : String :=
  formatFixed (calcQuantityVal raw step minQty) (calcDecimalPlaces step)

/-- `_calculate_buy_quantity` (main.py lines 266-300): the raw quantity is
`quote balance * (traded percentage / 100) / price` (line 278). -/
def calculateBuyQuantity (quoteBalance pct price : ℚ) (step minQty : DecNum) : String :=
  calcQuantityStr (quoteBalance * (pct / 100) / price) step minQty

/-- `_calculate_sell_quantity` (main.py lines 302-326): the raw quantity is
the full base-asset balance (line 307). -/
def calculateSellQuantity (baseBalance : ℚ) (step minQty : DecNum) : String :=
  calcQuantityStr baseBalance step minQty

/-- `_validate_trade_quantity` (main.py lines 328-361), on the path where
both the LOT_SIZE and the MIN_NOTIONAL filters are present for the pair.
The checks run in source order; the step-multiple check uses the normalized
step size, whose value equals the step size, so it is expressed directly on
the rational value (`qty % normalized_step != 0`). -/
def validateTradeQuantity (qty price minQty maxQty step minNotional : ℚ) : Except String Unit :=
  if qty ≤ 0 then Except.error "Quantidade de trade invalida"
  else if qty < minQty then Except.error "Quantidade menor que o minimo permitido"
  else if maxQty < qty then Except.error "Quantidade maior que o maximo permitido"
  else if qty - step * Rat.floor (qty / step) ≠ 0 then Except.error "Quantidade deve ser multipla do stepSize"
  else if qty * price < minNotional then Except.error "Valor total da ordem abaixo do minimo"
  else Except.ok ()

/-- Outcome of one attempted order round-trip inside `buyStock` /
`sellStock`: the order succeeds, `create_order` raises
`BinanceAPIException` (the request reached the exchange and was rejected),
or quantity calculation / validation raises `ValueError` before any order
request is sent. -/
inductive CallOutcome where
  | ok
  | apiError
  | validationError
deriving DecidableEq, Repr

/-- An order request sent to the exchange (a `create_order` call). -/
inductive TradeAction where
  | buyOrder
  | sellOrder
deriving DecidableEq, Repr

/-- `buyStock` (main.py lines 196-218), as a function of the position flag
`actual_trade_position` and the exchange outcome.  Returns the value the
method returns, the list of order requests sent, and the new position flag.
The flag is flipped to `true` only after `create_order` returns (line 208);
both exception paths return `None` and leave the flag unchanged. -/
def buyStock (pos : Bool) (out : CallOutcome) : Option Unit × List TradeAction × Bool :=
  if pos then (none, [], pos)
  else
    match out with
    | CallOutcome.ok => (some (), [TradeAction.buyOrder], true)
    | CallOutcome.apiError => (none, [TradeAction.buyOrder], pos)
    | CallOutcome.validationError => (none, [], pos)

/-- `sellStock` (main.py lines 220-242), mirror of `buyStock`: acts only
when the position flag is set, flips it to `false` only after
`create_order` returns (line 232). -/
def sellStock (pos : Bool) (out : CallOutcome) : Option Unit × List TradeAction × Bool :=
  if pos then
    match out with
    | CallOutcome.ok => (some (), [TradeAction.sellOrder], false)
    | CallOutcome.apiError => (none, [TradeAction.sellOrder], pos)
    | CallOutcome.validationError => (none, [], pos)
  else (none, [], pos)

/-- The state-changing portion of one successful `updateAllData` body
(main.py lines 114-147): the position flag is recomputed from the freshly
fetched base-asset balance (`getActualTradePosition`, line 172: balance
greater than the 0.001 dust threshold), and, while in position with a
non-empty candle list, the percentage change between the two most recent
closes drives the stop-loss and take-profit sells (lines 136-145).  With
exactly one candle, `iloc[-2]` raises an IndexError which the generic
handler re-raises (lines 157-159), modelled as `Except.error`. -/
def updateAllData (balance : ℚ) (closes : List ℚ) (sl tp : ℚ) (sellOut : CallOutcome) :
    Except Unit (Bool × List TradeAction) :=
  let pos : Bool := decide ((1 : ℚ)/1000 < balance)
  if pos && decide (0 < closes.length) then
    match closes.reverse with
    | currentPrice :: entryPrice :: _ =>
      let priceChange := (currentPrice - entryPrice) / entryPrice * 100
      let r1 := if priceChange ≤ -sl then sellStock pos sellOut else (none, [], pos)
      let r2 := if tp ≤ priceChange then sellStock r1.2.2 sellOut else (none, [], r1.2.2)
      Except.ok (r2.2.2, r1.2.1 ++ r2.2.1)
    | _ => Except.error ()
  else Except.ok (pos, [])

/-- Percentage change between the two most recent candle closes
(main.py lines 137-139), when they exist. -/
def lastTwoChange (closes : List ℚ) : Option ℚ :=
  match closes.reverse with
  | currentPrice :: entryPrice :: _ => some ((currentPrice - entryPrice) / entryPrice * 100)
  | _ => none

/-- One decision pass of `_run_loop` (main.py lines 413-435): refresh data
(which performs the stop-loss/take-profit check first), then compute
`trade_decision = (latest signal == 1)` and buy when flat with a Buy
signal, or sell when in position with any other signal. -/
def runLoopCycle (balance : ℚ) (closes : List ℚ) (sl tp : ℚ) (signal : ℤ)
    (buyOut sellOut slSellOut : CallOutcome) : Except Unit (Bool × List TradeAction) :=
  match updateAllData balance closes sl tp slSellOut with
  | Except.error e => Except.error e
  | Except.ok (pos, acts) =>
    let tradeDecision : Bool := decide (signal = 1)
    if !pos && tradeDecision then
      let r := buyStock pos buyOut
      Except.ok (r.2.2, acts ++ r.2.1)
    else if pos && !tradeDecision then
      let r := sellStock pos sellOut
      Except.ok (r.2.2, acts ++ r.2.1)
    else Except.ok (pos, acts)

/-- `stop` (main.py lines 402-408): if running, clear the running flag,
sell the open position if any, then refresh all data (`balanceAfter` and
`closes` are the values the refresh fetches after the sell attempt).
Returns the new running flag, the new position flag, and the order
requests sent. -/
def stopBot (running pos : Bool) (sellOut : CallOutcome) (balanceAfter : ℚ)
    (closes : List ℚ) (sl tp : ℚ) (slSellOut : CallOutcome) :
    Except Unit (Bool × Bool × List TradeAction) :=
  if running then
    let r := if pos then sellStock pos sellOut else (none, [], pos)
    match updateAllData balanceAfter closes sl tp slSellOut with
    | Except.ok (pos2, acts2) => Except.ok (false, pos2, r.2.1 ++ acts2)
    | Except.error e => Except.error e
  else Except.ok (running, pos, [])

/-- One row of the indicator DataFrame, with the columns `strategy_signals`
reads (indicators.py line 51). -/
structure IndRow where
  ema7 : ℚ
  ema25 : ℚ
  macdLine : ℚ
  signalLine : ℚ
deriving DecidableEq, Repr

/-- Buy condition (indicators.py line 56): EMA7 below EMA25 and MACD line
above its signal line. -/
def buyCond (r : IndRow) : Bool :=
  decide (r.ema7 < r.ema25) && decide (r.signalLine < r.macdLine)

/-- Sell condition (indicators.py line 57): EMA7 above EMA25 and MACD line
below its signal line. -/
def sellCond (r : IndRow) : Bool :=
  decide (r.ema25 < r.ema7) && decide (r.macdLine < r.signalLine)

/-- Raw per-bar signal column before forward filling (indicators.py lines
60-68): 1 on a buy crossover (condition true now, false on the previous
bar, with `shift(1, fill_value=False)`), -1 on a sell crossover (written
after the buy crossovers, so it wins where both would apply), otherwise 0.
The first two arguments carry the previous-bar conditions. -/
def rawSignals : Bool → Bool → List IndRow → List ℤ
  | _, _, [] => []
  | pb, ps, r :: rs =>
    (if sellCond r && !ps then (-1 : ℤ) else if buyCond r && !pb then 1 else 0) ::
      rawSignals (buyCond r) (sellCond r) rs

/-- Forward fill of the signal column (indicators.py line 71):
`replace(0, nan).ffill().fillna(0)` replaces each 0 with the most recent
non-zero value, or with the initial carry 0 before the first event. -/
def ffillSignals : ℤ → List ℤ → List ℤ
  | _, [] => []
  | carry, v :: vs =>
    (if v = 0 then carry else v) :: ffillSignals (if v = 0 then carry else v) vs

/-- `strategy_signals` (indicators.py lines 45-73): crossover detection
followed by forward filling, over the whole candle series. -/
def strategy_signals (rows : List IndRow) : List ℤ :=
  ffillSignals 0 (rawSignals false false rows)

/-- Specification-side signal automaton, following the words of the spec:
a Buy (1) or Sell (-1) event fires only on a bar where its condition is
true and was false on the previous bar; the signal value is carried
forward unchanged otherwise; before the first event the signal is Hold
(0). -/
def stickySignalSpec : Bool → Bool → ℤ → List IndRow → List ℤ
  | _, _, _, [] => []
  | pb, ps, st, r :: rs =>
    (if sellCond r && !ps then (-1 : ℤ) else if buyCond r && !pb then 1 else st) ::
      stickySignalSpec (buyCond r) (sellCond r)
        (if sellCond r && !ps then (-1 : ℤ) else if buyCond r && !pb then 1 else st) rs

/-- Sticky signal sequence from the initial Hold state. -/
def stickySignals (rows : List IndRow) : List ℤ :=
  stickySignalSpec false false 0 rows

/-- Outcome of one body execution inside the retry loop of `updateAllData`
(main.py lines 112-159): success, a `BinanceAPIException` (retried), or any
other exception (re-raised immediately, lines 157-159). -/
inductive RetryOutcome (E A : Type) where
  | ok (a : A)
  | apiErr (e : E)
  | otherErr (e : E)
deriving DecidableEq, Repr

/-- The retry loop of `updateAllData` (main.py lines 109-159): `fuel` is
the number of retries still allowed after the current attempt, `attempt`
is the 0-based attempt index, `delay` the current `retry_delay`, and
`slept` the total time slept so far.  Returns the surfaced result, the
number of attempts made, and the total sleep. -/
def retryGo {E A : Type} (f : ℕ → RetryOutcome E A) :
    ℕ → ℕ → ℕ → ℕ → Except E A × ℕ × ℕ
  | fuel, attempt, delay, slept =>
    match f attempt with
    | RetryOutcome.ok a => (Except.ok a, attempt + 1, slept)
    | RetryOutcome.otherErr e => (Except.error e, attempt + 1, slept)
    | RetryOutcome.apiErr e =>
      match fuel with
      | 0 => (Except.error e, attempt + 1, slept)
      | fuel' + 1 => retryGo f fuel' (attempt + 1) (delay * 2) (slept + delay)

/-- The retry wrapper with the source constants: `max_retries = 5` (so 4
retries remain after the first attempt) and `retry_delay = 10` seconds
(main.py lines 109-110). -/
def updateAllDataRetry {E A : Type} (f : ℕ → RetryOutcome E A) : Except E A × ℕ × ℕ :=
  retryGo f 4 0 10 0

lemma npow10_eq (n : ℕ) : npow10 n = (10 : ℚ) ^ n := by
  induction n with
  | zero => rfl
  | succ n ih => rw [npow10, ih, pow_succ]

lemma zpow10_eq : ∀ e : ℤ, zpow10 e = (10 : ℚ) ^ e
  | Int.ofNat n => by rw [zpow10, npow10_eq]; exact (zpow_natCast (10 : ℚ) n).symm
  | Int.negSucc n => by rw [zpow10, npow10_eq, zpow_negSucc, one_div]

lemma zpow10_pos (e : ℤ) : 0 < zpow10 e := by
  rw [zpow10_eq]; positivity

lemma ratFloor_eq (q : ℚ) : Rat.floor q = ⌊q⌋ := by
  rw [Rat.floor_def' q, Rat.floor_def]

lemma stripZerosAux_val (fuel : ℕ) :
    ∀ (c : ℕ) (e : ℤ),
      (((stripZerosAux fuel c e).1 : ℕ) : ℚ) * zpow10 (stripZerosAux fuel c e).2 =
        (c : ℚ) * zpow10 e := by
  induction fuel with
  | zero => intro c e; rfl
  | succ fuel ih =>
    intro c e
    rw [stripZerosAux]
    split
    · rename_i h
      rw [ih (c / 10) (e + 1)]
      have hdvd : 10 ∣ c := Nat.dvd_of_mod_eq_zero h.2
      have hc : ((c / 10 : ℕ) : ℚ) * 10 = (c : ℚ) := by
        rw [show ((c / 10 : ℕ) : ℚ) * 10 = (((c / 10) * 10 : ℕ) : ℚ) by push_cast; ring,
          Nat.div_mul_cancel hdvd]
      rw [zpow10_eq, zpow10_eq, zpow_add_one₀ (by norm_num : (10 : ℚ) ≠ 0)]
      calc ((c / 10 : ℕ) : ℚ) * ((10 : ℚ) ^ e * 10)
          = ((c / 10 : ℕ) : ℚ) * 10 * (10 : ℚ) ^ e := by ring
        _ = (c : ℚ) * (10 : ℚ) ^ e := by rw [hc]
    · rfl

lemma DecNum.normalize_val (d : DecNum) : d.normalize.val = d.val := by
  unfold DecNum.normalize
  split
  · rename_i h
    simp [DecNum.val, h]
  · exact stripZerosAux_val d.coeff d.coeff d.exp

lemma quantDown_val (x : ℚ) (E : ℤ) :
    (quantDown x E).val = ((Rat.floor (x * zpow10 (-E))).toNat : ℚ) * zpow10 E := rfl

/-- C2: the claim states that the computed order quantity is always an
exact multiple of the step size and never exceeds the raw quantity.  Both
parts fail on the source.  First, the clamp
`quantity_dec = max(min_qty, quantity_dec)` (main.py lines 293 and 319) can
return `minQty`, which may exceed the raw quantity: with raw quantity
0.0005, step size 0.001 and minQty 0.002 the result is 0.002 > 0.0005.
Second, `quantize` rounds to the exponent of the normalized step size, not
to a multiple of the step size: with step size 0.002 and raw quantity
0.003 the result is 0.003, which is not an integer multiple of 0.002. -/
theorem claimC2_counterexample :
    (1/2000 : ℚ) < calcQuantityVal (1/2000) ⟨1, -3⟩ ⟨2, -3⟩ ∧
    ¬ ∃ k : ℤ, calcQuantityVal (3/1000) ⟨2, -3⟩ ⟨0, 0⟩ = (k : ℚ) * DecNum.val ⟨2, -3⟩ := by
  constructor
  · have h : calcQuantityVal (1/2000) ⟨1, -3⟩ ⟨2, -3⟩ = 1/500 := by with_unfolding_all rfl
    rw [h]; norm_num
  · rintro ⟨k, hk⟩
    have h1 : calcQuantityVal (3/1000) ⟨2, -3⟩ ⟨0, 0⟩ = 3/1000 := by with_unfolding_all rfl
    have h2 : DecNum.val ⟨2, -3⟩ = 1/500 := by with_unfolding_all rfl
    rw [h1, h2] at hk
    have h3 : (2 * k : ℚ) = 3 := by
      field_simp at hk
      linarith
    have h4 : (2 * k : ℤ) = 3 := by exact_mod_cast h3
    omega

/-- C2 (amended): for a non-negative raw quantity, the quantized value
(before the minQty clamp) never exceeds the raw quantity; it is an exact
multiple of the step size whenever the step size is a power of ten
(normalized coefficient 1, true of the usual exchange step sizes); and the
value the calculators return is the maximum of `minQty` and the quantized
value, so only the clamp can exceed the raw quantity. -/
theorem claimC2_amended (raw : ℚ) (step minQty : DecNum) (hraw : 0 ≤ raw) :
    (quantDown raw step.normalize.exp).val ≤ raw ∧
    (step.normalize.coeff = 1 →
      ∃ k : ℕ, (quantDown raw step.normalize.exp).val = (k : ℚ) * step.val) ∧
    calcQuantityVal raw step minQty = max minQty.val (quantDown raw step.normalize.exp).val := by
  set E := step.normalize.exp with hE
  have hy : (0 : ℚ) ≤ raw * zpow10 (-E) := mul_nonneg hraw (zpow10_pos _).le
  have hfl : (0 : ℤ) ≤ ⌊raw * zpow10 (-E)⌋ := Int.floor_nonneg.mpr hy
  have hcast : (((Rat.floor (raw * zpow10 (-E))).toNat : ℕ) : ℚ) = ((⌊raw * zpow10 (-E)⌋ : ℤ) : ℚ) := by
    rw [ratFloor_eq]
    exact_mod_cast Int.toNat_of_nonneg hfl
  refine ⟨?_, ?_, ?_⟩
  · rw [quantDown_val, hcast]
    have hle : ((⌊raw * zpow10 (-E)⌋ : ℤ) : ℚ) ≤ raw * zpow10 (-E) := Int.floor_le _
    calc ((⌊raw * zpow10 (-E)⌋ : ℤ) : ℚ) * zpow10 E
        ≤ raw * zpow10 (-E) * zpow10 E :=
          mul_le_mul_of_nonneg_right hle (zpow10_pos E).le
      _ = raw * ((10 : ℚ) ^ (-E) * (10 : ℚ) ^ E) := by rw [zpow10_eq, zpow10_eq]; ring
      _ = raw := by
          rw [← zpow_add₀ (by norm_num : (10 : ℚ) ≠ 0), neg_add_cancel, zpow_zero, mul_one]
  · intro hone
    refine ⟨(Rat.floor (raw * zpow10 (-E))).toNat, ?_⟩
    have hsv : step.val = step.normalize.val := (DecNum.normalize_val step).symm
    rw [quantDown_val, hsv]
    unfold DecNum.val
    rw [hone, ← hE]
    push_cast
    ring
  · unfold calcQuantityVal
    rw [← hE]
    split
    · rename_i h
      exact (max_eq_right h).symm
    · rename_i h
      exact (max_eq_left (le_of_not_le h)).symm

lemma remainder_zero_iff (qty step : ℚ) (hstep : 0 < step) :
    qty - step * Rat.floor (qty / step) = 0 ↔ ∃ k : ℤ, qty = (k : ℚ) * step := by
  rw [ratFloor_eq]
  constructor
  · intro h
    refine ⟨⌊qty / step⌋, ?_⟩
    rw [mul_comm]
    linarith
  · rintro ⟨k, rfl⟩
    have hne : step ≠ 0 := ne_of_gt hstep
    rw [mul_div_cancel_right₀ _ hne, Int.floor_intCast]
    ring

/-- C2 witness: instantiation of the amended claim at the spec scenario
raw quantity 0.01, step size 0.00001, minQty 0.0001. -/
theorem claimC2_witness :
    (0 : ℚ) ≤ 1/100 ∧
    ((quantDown (1/100) (DecNum.normalize ⟨1, -5⟩).exp).val ≤ 1/100 ∧
      ((DecNum.normalize ⟨1, -5⟩).coeff = 1 →
        ∃ k : ℕ, (quantDown (1/100) (DecNum.normalize ⟨1, -5⟩).exp).val = (k : ℚ) * DecNum.val ⟨1, -5⟩) ∧
      calcQuantityVal (1/100) ⟨1, -5⟩ ⟨1, -4⟩ =
        max (DecNum.val ⟨1, -4⟩) (quantDown (1/100) (DecNum.normalize ⟨1, -5⟩).exp).val) :=
  ⟨by norm_num, claimC2_amended (1/100) ⟨1, -5⟩ ⟨1, -4⟩ (by norm_num)⟩

/-- C3: the quantity validation raises a validation error whenever the
quantity is non-positive, exceeds `maxQty`, is not an exact multiple of
`stepSize`, or has notional value below `minNotional`; a quantity meeting
every exchange rule (including the `minQty` lower bound, which the source
also enforces) passes without error.  Stated as a characterization of the
success case, which yields both directions; additionally, a `ValueError`
from validation makes `buyStock` / `sellStock` return `None` with no order
request sent. -/
theorem claimC3_validation (qty price minQty maxQty step minNotional : ℚ) (hstep : 0 < step) :
    (validateTradeQuantity qty price minQty maxQty step minNotional = Except.ok () ↔
      (0 < qty ∧ minQty ≤ qty ∧ qty ≤ maxQty ∧ (∃ k : ℤ, qty = (k : ℚ) * step) ∧
        minNotional ≤ qty * price)) ∧
    (∀ pos : Bool, buyStock pos CallOutcome.validationError = (none, [], pos) ∧
      sellStock pos CallOutcome.validationError = (none, [], pos)) := by
  constructor
  · constructor
    · intro hok
      unfold validateTradeQuantity at hok
      split_ifs at hok with h1 h2 h3 h4 h5
      exact ⟨lt_of_not_ge h1, not_lt.mp h2, not_lt.mp h3,
        (remainder_zero_iff qty step hstep).mp (not_ne_iff.mp h4), not_lt.mp h5⟩
    · rintro ⟨hq, hmin, hmax, hmul, hnot⟩
      unfold validateTradeQuantity
      rw [if_neg (not_le.mpr hq), if_neg (not_lt.mpr hmin), if_neg (not_lt.mpr hmax),
        if_neg (not_ne_iff.mpr ((remainder_zero_iff qty step hstep).mpr hmul)),
        if_neg (not_lt.mpr hnot)]
  · intro pos
    cases pos <;> exact ⟨rfl, rfl⟩

/-- C3 witness: a quantity that meets every exchange rule passes the
validation. -/
theorem claimC3_witness :
    (0 : ℚ) < 1/10 ∧
    validateTradeQuantity 1 10 (1/10) 100 (1/10) 1 = Except.ok () := by
  refine ⟨by norm_num, ?_⟩
  exact ((claimC3_validation 1 10 (1/10) 100 (1/10) 1 (by norm_num)).1).mpr
    ⟨by norm_num, by norm_num, by norm_num, ⟨10, by norm_num⟩, by norm_num⟩

lemma digitChar_ne_dot (d : ℕ) : digitChar d ≠ '.' := by
  unfold digitChar
  have h : d % 10 < 10 := Nat.mod_lt _ (by norm_num)
  set k := d % 10 with hk
  clear_value k
  interval_cases k <;> decide

lemma natDigitsAux_no_dot (fuel : ℕ) : ∀ (n : ℕ), ∀ c ∈ natDigitsAux fuel n, c ≠ '.' := by
  induction fuel with
  | zero => intro n c hc; simp [natDigitsAux] at hc
  | succ fuel ih =>
    intro n c hc
    by_cases hn : n = 0
    · simp [natDigitsAux, hn] at hc
    · simp only [natDigitsAux, if_neg hn, List.mem_append, List.mem_singleton] at hc
      rcases hc with h1 | h2
      · exact ih (n / 10) c h1
      · rw [h2]; exact digitChar_ne_dot _

lemma natDigitString_no_dot (n : ℕ) : ∀ c ∈ natDigitString n, c ≠ '.' := by
  intro c hc
  unfold natDigitString at hc
  split at hc
  · simp at hc; rw [hc]; decide
  · exact natDigitsAux_no_dot n n c hc

lemma padLeft_no_dot (l : List Char) (n : ℕ) (h : ∀ c ∈ l, c ≠ '.') :
    ∀ c ∈ padLeft l n, c ≠ '.' := by
  intro c hc
  unfold padLeft at hc
  rcases List.mem_append.mp hc with h1 | h2
  · rw [List.eq_of_mem_replicate h1]; decide
  · exact h c h2

lemma padLeft_length (l : List Char) (n : ℕ) : n + 1 ≤ (padLeft l n).length := by
  unfold padLeft
  rw [List.length_append, List.length_replicate]
  omega

lemma dropWhile_no_dot_nil (l : List Char) (h : ∀ c ∈ l, c ≠ '.') :
    l.dropWhile (fun c => c != '.') = [] := by
  induction l with
  | nil => rfl
  | cons a t ih =>
    have ha : (a != '.') = true := bne_iff_ne.mpr (h a (List.mem_cons_self a t))
    rw [List.dropWhile_cons, if_pos ha]
    exact ih (fun c hc => h c (List.mem_cons_of_mem _ hc))

lemma dropWhile_to_dot (pre suf : List Char) (h : ∀ c ∈ pre, c ≠ '.') :
    (pre ++ '.' :: suf).dropWhile (fun c => c != '.') = '.' :: suf := by
  induction pre with
  | nil =>
    rw [List.nil_append, List.dropWhile_cons]
    norm_num
  | cons a t ih =>
    have ha : (a != '.') = true := bne_iff_ne.mpr (h a (List.mem_cons_self a t))
    rw [List.cons_append, List.dropWhile_cons, if_pos ha]
    exact ih (fun c hc => h c (List.mem_cons_of_mem _ hc))

lemma countFrac_formatFixed (x : ℚ) (n : ℕ) : countFracDigits (formatFixed x n) = n := by
  unfold formatFixed countFracDigits
  set ds := padLeft (natDigitString (roundHalfEven (x * npow10 n)).toNat) n with hds
  have hno : ∀ c ∈ ds, c ≠ '.' :=
    padLeft_no_dot _ n (natDigitString_no_dot _)
  have hlen : n + 1 ≤ ds.length := padLeft_length _ n
  show (((String.mk (insertDot ds n)).data.dropWhile (fun c => c != '.')).drop 1).length = n
  have hdata : (String.mk (insertDot ds n)).data = insertDot ds n := rfl
  rw [hdata]
  by_cases hn : n = 0
  · subst hn
    unfold insertDot
    rw [if_pos rfl, dropWhile_no_dot_nil ds hno]
    rfl
  · unfold insertDot
    rw [if_neg hn,
      dropWhile_to_dot _ _ (fun c hc => hno c (List.mem_of_mem_take hc))]
    simp only [List.drop_succ_cons, List.drop_zero, List.length_drop]
    omega

/-- C9: the claim states the quantity string carries exactly as many
fractional digits as the step size has as supplied by the exchange.  The
source formats with the digits of the NORMALIZED step size (trailing zeros
stripped, main.py lines 290 and 294): for the step size "0.00001000"
(coefficient 1000, exponent -8, eight fractional digits as supplied) the
submitted string in the spec scenario is "0.01000" with five fractional
digits, not eight. -/
theorem claimC9_counterexample :
    countFracDigits (calculateBuyQuantity 1000 50 50000 ⟨1000, -8⟩ ⟨1, -4⟩) = 5 ∧
    (DecNum.exp ⟨1000, -8⟩).natAbs = 8 ∧ (5 : ℕ) ≠ 8 := by
  refine ⟨?_, by with_unfolding_all rfl, by norm_num⟩
  with_unfolding_all rfl

/-- C9 (amended): the quantity string always carries exactly as many
fractional digits as the exponent of the NORMALIZED step size (equal to
the supplied precision when the step size has no trailing zeros, as in the
spec example 0.00001); in the spec scenario (quote balance 1000, trading
percentage 50, price 50000, step size 0.00001, minQty 0.0001) the raw
quantity is 0.01 and the submitted string is exactly "0.01000". -/
theorem claimC9_amended :
    (∀ (raw : ℚ) (step minQty : DecNum),
      countFracDigits (calcQuantityStr raw step minQty) = calcDecimalPlaces step) ∧
    calculateBuyQuantity 1000 50 50000 ⟨1, -5⟩ ⟨1, -4⟩ = "0.01000" := by
  refine ⟨fun raw step minQty => countFrac_formatFixed _ _, ?_⟩
  with_unfolding_all rfl

lemma updateAllData_spec (balance : ℚ) (closes : List ℚ) (sl tp pc : ℚ)
    (h1 : 1/1000 < balance) (h2 : lastTwoChange closes = some pc) :
    updateAllData balance closes sl tp CallOutcome.ok =
      Except.ok (if pc ≤ -sl ∨ tp ≤ pc then (false, [TradeAction.sellOrder]) else (true, [])) := by
  unfold lastTwoChange at h2
  rcases hr : closes.reverse with _ | ⟨cur, t⟩
  · rw [hr] at h2; exact absurd h2 (by simp)
  rcases t with _ | ⟨ent, rest⟩
  · rw [hr] at h2; exact absurd h2 (by simp)
  rw [hr] at h2
  simp only [Option.some.injEq] at h2
  have hlen : 0 < closes.length := by
    have hrl : closes.reverse.length = closes.length := List.length_reverse closes
    rw [hr] at hrl
    simp at hrl
    omega
  have hb : decide ((1 : ℚ)/1000 < balance) = true := decide_eq_true h1
  have hl : decide (0 < closes.length) = true := decide_eq_true hlen
  unfold updateAllData
  rw [hb, hl, hr]
  simp only [Bool.and_self, if_true]
  subst h2
  by_cases hA : (cur - ent) / ent * 100 ≤ -sl <;> by_cases hB : tp ≤ (cur - ent) / ent * 100
  · simp [sellStock, hA, hB]
  · simp [sellStock, hA, hB]
  · simp [sellStock, hA, hB]
  · simp [sellStock, hA, hB]

lemma runLoopCycle_self (balance : ℚ) (closes : List ℚ) (sl tp pc : ℚ)
    (buyOut sellOut : CallOutcome)
    (h1 : 1/1000 < balance) (h2 : lastTwoChange closes = some pc)
    (h3 : ¬(pc ≤ -sl ∨ tp ≤ pc)) :
    runLoopCycle balance closes sl tp 1 buyOut sellOut CallOutcome.ok = Except.ok (true, []) := by
  unfold runLoopCycle
  rw [updateAllData_spec balance closes sl tp pc h1 h2, if_neg h3]
  rfl

/-- C6: the claim asserts the stop-loss/take-profit check runs on every
refresh while Long with a NON-EMPTY candle series.  The source guard is
indeed `len(candle_data) > 0` (main.py line 136), but the check reads
`iloc[-2]` (line 138): with exactly one candle the refresh raises an
IndexError (re-raised by the generic handler, lines 157-159) instead of
computing a price change, so the claim fails on a one-candle series. -/
theorem claimC6_counterexample :
    updateAllData 1 [100] 1 1 CallOutcome.ok = Except.error () := by
  with_unfolding_all rfl

/-- C6 (amended): on a refresh while Long with AT LEAST TWO candles, the
bot computes `price_change = (latest - previous)/previous * 100` over the
two most recent closes and triggers a Sell exactly when
`price_change <= -stop_loss` or `price_change >= take_profit`, independent
of the indicator signal; the spec instances hold (closes [100, 98.5] with
stop-loss 1.0 sells, closes [100, 99.2] does not); and in a full cycle the
risk-exit Sell precedes any signal-driven order. -/
theorem claimC6_amended :
    (∀ (balance : ℚ) (closes : List ℚ) (sl tp pc : ℚ), 1/1000 < balance →
      lastTwoChange closes = some pc →
      updateAllData balance closes sl tp CallOutcome.ok =
        Except.ok (if pc ≤ -sl ∨ tp ≤ pc then (false, [TradeAction.sellOrder]) else (true, []))) ∧
    updateAllData 1 [100, 197/2] 1 1 CallOutcome.ok = Except.ok (false, [TradeAction.sellOrder]) ∧
    updateAllData 1 [100, 496/5] 1 1 CallOutcome.ok = Except.ok (true, []) ∧
    runLoopCycle 1 [100, 197/2] 1 1 1 CallOutcome.ok CallOutcome.ok CallOutcome.ok =
      Except.ok (true, [TradeAction.sellOrder, TradeAction.buyOrder]) := by
  refine ⟨fun balance closes sl tp pc h1 h2 => updateAllData_spec balance closes sl tp pc h1 h2,
    ?_, ?_, ?_⟩
  · with_unfolding_all rfl
  · with_unfolding_all rfl
  · with_unfolding_all rfl

/-- C6 witness: the stop-loss spec instance, closes [100, 98.5] with
stop-loss 1.0 and take-profit 1.0 while Long. -/
theorem claimC6_witness :
    ((1 : ℚ)/1000 < 1 ∧ lastTwoChange [100, 197/2] = some (-3/2)) ∧
    updateAllData 1 [100, 197/2] 1 1 CallOutcome.ok =
      Except.ok (if (-3/2 : ℚ) ≤ -1 ∨ (1 : ℚ) ≤ -3/2 then (false, [TradeAction.sellOrder])
        else (true, [])) := by
  refine ⟨⟨by norm_num, by with_unfolding_all rfl⟩, ?_⟩
  exact claimC6_amended.1 1 [100, 197/2] 1 1 (-3/2) (by norm_num) (by with_unfolding_all rfl)

/-- C4: the claim asserts that while Long a Sell is submitted only on a
Sell signal or a stop-loss/take-profit breach, and in particular that a
Hold signal while Long submits no Sell.  The source sells whenever
`trade_decision = (signal == 1)` is false while in position (main.py
lines 417 and 427), which includes the Hold signal 0: with balance above
the dust threshold, no breach (closes [100, 100]) and signal 0, the cycle
submits a sell order. -/
theorem claimC4_counterexample :
    runLoopCycle 1 [100, 100] 1 1 0 CallOutcome.ok CallOutcome.ok CallOutcome.ok =
      Except.ok (false, [TradeAction.sellOrder]) := by
  with_unfolding_all rfl

/-- C4 (amended): while Long, a Buy signal with no stop-loss/take-profit
breach is a self-transition (state unchanged, no order); and a sell order
is submitted in a cycle only when the price change breaches stop-loss or
take-profit or the signal is NOT Buy (Sell or Hold alike). -/
theorem claimC4_amended :
    (∀ (balance : ℚ) (closes : List ℚ) (sl tp pc : ℚ) (buyOut sellOut : CallOutcome),
      1/1000 < balance → lastTwoChange closes = some pc → ¬(pc ≤ -sl ∨ tp ≤ pc) →
      runLoopCycle balance closes sl tp 1 buyOut sellOut CallOutcome.ok = Except.ok (true, [])) ∧
    (∀ (balance : ℚ) (closes : List ℚ) (sl tp pc : ℚ) (signal : ℤ)
        (buyOut sellOut : CallOutcome) (p : Bool) (acts : List TradeAction),
      1/1000 < balance → lastTwoChange closes = some pc →
      runLoopCycle balance closes sl tp signal buyOut sellOut CallOutcome.ok = Except.ok (p, acts) →
      TradeAction.sellOrder ∈ acts → (pc ≤ -sl ∨ tp ≤ pc ∨ signal ≠ 1)) := by
  constructor
  · exact fun balance closes sl tp pc buyOut sellOut h1 h2 h3 =>
      runLoopCycle_self balance closes sl tp pc buyOut sellOut h1 h2 h3
  · intro balance closes sl tp pc signal buyOut sellOut p acts h1 h2 hrun hmem
    by_cases hbr : pc ≤ -sl
    · exact Or.inl hbr
    by_cases hbr2 : tp ≤ pc
    · exact Or.inr (Or.inl hbr2)
    by_cases hsig : signal = 1
    · exfalso
      subst hsig
      rw [runLoopCycle_self balance closes sl tp pc buyOut sellOut h1 h2 (by tauto)] at hrun
      simp only [Except.ok.injEq, Prod.mk.injEq] at hrun
      rw [← hrun.2] at hmem
      simp at hmem
    · exact Or.inr (Or.inr hsig)

/-- C4 witness: a Buy signal while Long with no breach is a self-transition. -/
theorem claimC4_witness :
    ((1 : ℚ)/1000 < 1 ∧ lastTwoChange [100, 100] = some 0 ∧ ¬((0 : ℚ) ≤ -1 ∨ (1 : ℚ) ≤ 0)) ∧
    runLoopCycle 1 [100, 100] 1 1 1 CallOutcome.ok CallOutcome.ok CallOutcome.ok =
      Except.ok (true, []) := by
  refine ⟨⟨by norm_num, by with_unfolding_all rfl, by norm_num⟩, ?_⟩
  exact claimC4_amended.1 1 [100, 100] 1 1 0 CallOutcome.ok CallOutcome.ok (by norm_num)
    (by with_unfolding_all rfl) (by norm_num)

/-- C1: the claim asserts that the Long flag is set only by a successful
Buy and cleared only by a successful Sell.  The source overwrites the flag
on every data refresh from the reconciled balance
(`self.actual_trade_position = self.getActualTradePosition()`, main.py
line 118, balance above 0.001): here a refresh alone, with no buy call and
an empty list of submitted orders, turns the position flag on. -/
theorem claimC1_counterexample :
    updateAllData 1 [100, 100] 1 1 CallOutcome.ok = Except.ok (true, []) := by
  with_unfolding_all rfl

/-- C1 (amended): whenever the position flag is set, `buyStock` submits no
order and returns `None`; within `buyStock` the flag is turned on only by
a successful order and within `sellStock` turned off only by a successful
order; a buy order request is only ever sent while the flag is off; but in
addition every data refresh rewrites the flag from the reconciled balance
(on after the refresh implies balance above the 0.001 dust threshold), so
reconciliation, and not only orders, can set or clear it. -/
theorem claimC1_amended :
    (∀ out : CallOutcome, buyStock true out = (none, [], true)) ∧
    (∀ (pos : Bool) (out : CallOutcome),
      (buyStock pos out).2.2 = true → pos = true ∨ out = CallOutcome.ok) ∧
    (∀ (pos : Bool) (out : CallOutcome),
      (sellStock pos out).2.2 = false → pos = false ∨ out = CallOutcome.ok) ∧
    (∀ (pos : Bool) (out : CallOutcome), (buyStock pos out).2.1 ≠ [] → pos = false) ∧
    (∀ (balance : ℚ) (closes : List ℚ) (sl tp : ℚ) (sOut : CallOutcome)
        (p : Bool) (acts : List TradeAction),
      updateAllData balance closes sl tp sOut = Except.ok (p, acts) →
      p = true → 1/1000 < balance) := by
  refine ⟨?_, ?_, ?_, ?_, ?_⟩
  · intro out; cases out <;> rfl
  · intro pos out h
    cases pos
    · cases out
      · exact Or.inr rfl
      · exact absurd h (by decide)
      · exact absurd h (by decide)
    · exact Or.inl rfl
  · intro pos out h
    cases pos
    · exact Or.inl rfl
    · cases out
      · exact Or.inr rfl
      · exact absurd h (by decide)
      · exact absurd h (by decide)
  · intro pos out h
    cases pos
    · rfl
    · exfalso
      apply h
      cases out <;> rfl
  · intro balance closes sl tp sOut p acts hupd hp
    by_cases hb : (1 : ℚ)/1000 < balance
    · exact hb
    · exfalso
      have hdec : decide ((1 : ℚ)/1000 < balance) = false := decide_eq_false hb
      unfold updateAllData at hupd
      rw [hdec] at hupd
      simp at hupd
      rw [hp] at hupd
      exact absurd hupd.1.symm (by decide)

/-- C1 witness: a successful buy while flat turns the flag on. -/
theorem claimC1_witness :
    (buyStock false CallOutcome.ok).2.2 = true ∧
    (false = true ∨ CallOutcome.ok = CallOutcome.ok) :=
  ⟨by decide, claimC1_amended.2.1 false CallOutcome.ok (by decide)⟩

/-- C10: if validation raises or `create_order` fails inside `buyStock` /
`sellStock`, the method returns `None` and the position flag keeps its
prior value; the optimistic flip happens only after `create_order`
returns. -/
theorem claimC10_failure_no_flip (pos : Bool) (out : CallOutcome) (h : out ≠ CallOutcome.ok) :
    (buyStock pos out).1 = none ∧ (buyStock pos out).2.2 = pos ∧
    (sellStock pos out).1 = none ∧ (sellStock pos out).2.2 = pos := by
  cases out with
  | ok => exact absurd rfl h
  | apiError => cases pos <;> exact ⟨rfl, rfl, rfl, rfl⟩
  | validationError => cases pos <;> exact ⟨rfl, rfl, rfl, rfl⟩

/-- C10 witness: a rejected order request leaves the flag and the return
value untouched. -/
theorem claimC10_witness :
    (CallOutcome.apiError ≠ CallOutcome.ok) ∧
    ((buyStock false CallOutcome.apiError).1 = none ∧
      (buyStock false CallOutcome.apiError).2.2 = false ∧
      (sellStock false CallOutcome.apiError).1 = none ∧
      (sellStock false CallOutcome.apiError).2.2 = false) :=
  ⟨by decide, claimC10_failure_no_flip false CallOutcome.apiError (by decide)⟩

/-- C8: the claim asserts that `stop()` while running and Long submits
exactly one Sell and leaves the state Flat.  When the sell attempt fails
validation (a `ValueError` from quantity calculation or validation), no
order is submitted at all and the position stays Long; here `stop()` with
a failing sell and a still-positive reconciled balance halts the loop with
zero sell orders and the flag still on. -/
theorem claimC8_counterexample :
    stopBot true true CallOutcome.validationError 1 [100, 100] 1 1 CallOutcome.ok =
      Except.ok (false, true, []) := by
  with_unfolding_all rfl

/-- C8 (amended): `stop()` while running and Long submits exactly one Sell
and ends Flat PROVIDED the sell succeeds and the reconciled post-sell
balance is at most the dust threshold; while Flat (with the balance still
at most the dust threshold) it submits nothing; and when not running it
does nothing. -/
theorem claimC8_amended :
    (∀ (balAfter : ℚ) (closes : List ℚ) (sl tp : ℚ) (slOut : CallOutcome),
      balAfter ≤ 1/1000 →
      stopBot true true CallOutcome.ok balAfter closes sl tp slOut =
        Except.ok (false, false, [TradeAction.sellOrder])) ∧
    (∀ (balAfter : ℚ) (closes : List ℚ) (sl tp : ℚ) (slOut : CallOutcome),
      balAfter ≤ 1/1000 →
      stopBot true false CallOutcome.ok balAfter closes sl tp slOut =
        Except.ok (false, false, [])) ∧
    (∀ (pos : Bool) (out : CallOutcome) (balAfter : ℚ) (closes : List ℚ)
        (sl tp : ℚ) (slOut : CallOutcome),
      stopBot false pos out balAfter closes sl tp slOut = Except.ok (false, pos, [])) := by
  refine ⟨?_, ?_, ?_⟩
  · intro balAfter closes sl tp slOut h
    have hdec : decide ((1 : ℚ)/1000 < balAfter) = false :=
      decide_eq_false (not_lt.mpr h)
    unfold stopBot updateAllData
    rw [hdec]
    simp [sellStock]
  · intro balAfter closes sl tp slOut h
    have hdec : decide ((1 : ℚ)/1000 < balAfter) = false :=
      decide_eq_false (not_lt.mpr h)
    unfold stopBot updateAllData
    rw [hdec]
    simp
  · intro pos out balAfter closes sl tp slOut
    rfl

/-- C8 witness: a running Long bot with a successful sell and a dust
post-sell balance stops with exactly one sell order and ends Flat. -/
theorem claimC8_witness :
    (0 : ℚ) ≤ 1/1000 ∧
    stopBot true true CallOutcome.ok 0 [] 1 1 CallOutcome.ok =
      Except.ok (false, false, [TradeAction.sellOrder]) :=
  ⟨by norm_num, claimC8_amended.1 0 [] 1 1 CallOutcome.ok (by norm_num)⟩

lemma ffill_raw_spec (rows : List IndRow) :
    ∀ (pb ps : Bool) (st : ℤ),
      ffillSignals st (rawSignals pb ps rows) = stickySignalSpec pb ps st rows := by
  induction rows with
  | nil => intro pb ps st; rfl
  | cons r rs ih =>
    intro pb ps st
    simp only [rawSignals, ffillSignals, stickySignalSpec]
    by_cases hs : (sellCond r && !ps) = true
    · simp [hs, ih]
    · by_cases hb2 : (buyCond r && !pb) = true
      · simp [hs, hb2, ih]
      · simp [hs, hb2, ih]

/-- C5: the signal sequence the source derives (crossover detection with
`shift(1, fill_value=False)` followed by `replace(0, nan).ffill().fillna(0)`)
coincides, on every candle series, with the sticky-signal automaton of the
spec: an event fires only on a bar where its condition is true and was
false on the previous bar, the value is carried forward unchanged
otherwise, and every bar before the first event reads Hold (0).  The spec
condition pattern [F,F,T,T,T,F,F,T] for Buy (with the Sell condition never
true) yields [0,0,1,1,1,1,1,1]: Buy fires at the first T and is never
re-fired visibly. -/
theorem claimC5_sticky :
    (∀ rows : List IndRow, strategy_signals rows = stickySignals rows) ∧
    strategy_signals [⟨0,0,0,0⟩, ⟨0,0,0,0⟩, ⟨0,1,1,0⟩, ⟨0,1,1,0⟩, ⟨0,1,1,0⟩,
        ⟨0,0,0,0⟩, ⟨0,0,0,0⟩, ⟨0,1,1,0⟩] = [0, 0, 1, 1, 1, 1, 1, 1] := by
  refine ⟨fun rows => ffill_raw_spec rows false false 0, ?_⟩
  with_unfolding_all rfl

lemma retryGo_success {E A : Type} (f : ℕ → RetryOutcome E A) (a : A) :
    ∀ (m fuel attempt delay slept : ℕ), m ≤ fuel →
      (∀ i, i < m → ∃ er, f (attempt + i) = RetryOutcome.apiErr er) →
      f (attempt + m) = RetryOutcome.ok a →
      retryGo f fuel attempt delay slept =
        (Except.ok a, attempt + m + 1, slept + delay * (2 ^ m - 1)) := by
  intro m
  induction m with
  | zero =>
    intro fuel attempt delay slept hle hfail hok
    rw [Nat.add_zero] at hok
    rw [retryGo, hok]
    simp
  | succ m ih =>
    intro fuel attempt delay slept hle hfail hok
    obtain ⟨er, her⟩ := hfail 0 (Nat.succ_pos m)
    rw [Nat.add_zero] at her
    cases fuel with
    | zero => omega
    | succ fuel =>
      rw [retryGo, her]
      dsimp only
      have hrec := ih fuel (attempt + 1) (delay * 2) (slept + delay) (by omega)
        (fun i hi => by
          have hgot := hfail (i + 1) (by omega)
          rwa [show attempt + (i + 1) = attempt + 1 + i by omega] at hgot)
        (by rwa [show attempt + 1 + m = attempt + (m + 1) by omega])
      rw [hrec]
      have hpow : 0 < 2 ^ m := pow_pos (by norm_num) m
      obtain ⟨Q, hQ⟩ : ∃ Q, 2 ^ m = Q + 1 := ⟨2 ^ m - 1, (Nat.succ_pred_eq_of_pos hpow).symm⟩
      have harith : slept + delay + delay * 2 * (2 ^ m - 1) =
          slept + delay * (2 ^ (m + 1) - 1) := by
        rw [pow_succ, hQ]
        have h1 : Q + 1 - 1 = Q := by omega
        have h2 : (Q + 1) * 2 - 1 = 2 * Q + 1 := by omega
        rw [h1, h2]
        ring
      rw [harith]
      have hatt : attempt + 1 + m + 1 = attempt + (m + 1) + 1 := by omega
      rw [hatt]

lemma retryGo_exhaust {E A : Type} (f : ℕ → RetryOutcome E A) (e4 : E)
    (h : ∀ i, i < 4 → ∃ er, f i = RetryOutcome.apiErr er)
    (h4 : f 4 = RetryOutcome.apiErr e4) :
    updateAllDataRetry f = (Except.error e4, 5, 150) := by
  obtain ⟨e0, he0⟩ := h 0 (by norm_num)
  obtain ⟨e1, he1⟩ := h 1 (by norm_num)
  obtain ⟨e2, he2⟩ := h 2 (by norm_num)
  obtain ⟨e3, he3⟩ := h 3 (by norm_num)
  unfold updateAllDataRetry
  rw [retryGo, he0]
  dsimp only
  norm_num
  rw [retryGo, he1]
  dsimp only
  norm_num
  rw [retryGo, he2]
  dsimp only
  norm_num
  rw [retryGo, he3]
  dsimp only
  norm_num
  rw [retryGo, h4]

/-- C7: the retry wrapper around the data refresh makes the first attempt
immediately, sleeps the current delay and doubles it after each transient
(`BinanceAPIException`) failure, and allows 5 attempts in total with an
initial delay of 10 seconds.  If the body succeeds on attempt `m`
(0-based, after `m` transient failures), the wrapper returns that success
immediately with `m + 1` total attempts and total sleep
`10 * (2 ^ m - 1) = 10 + 20 + ...`; if all 5 attempts fail transiently,
it surfaces the error of the LAST attempt after 5 attempts and 150
seconds of sleep. -/
theorem claimC7_retry :
    (∀ (E A : Type) (f : ℕ → RetryOutcome E A) (a : A) (m : ℕ), m < 5 →
      (∀ i, i < m → ∃ er, f i = RetryOutcome.apiErr er) → f m = RetryOutcome.ok a →
      updateAllDataRetry f = (Except.ok a, m + 1, 10 * (2 ^ m - 1))) ∧
    (∀ (E A : Type) (f : ℕ → RetryOutcome E A) (e4 : E),
      (∀ i, i < 4 → ∃ er, f i = RetryOutcome.apiErr er) → f 4 = RetryOutcome.apiErr e4 →
      updateAllDataRetry f = (Except.error e4, 5, 150)) := by
  constructor
  · intro E A f a m hm hfail hok
    have h := retryGo_success f a m 4 0 10 0 (by omega)
      (fun i hi => by simpa using hfail i hi) (by simpa using hok)
    simpa using h
  · intro E A f e4 h h4
    exact retryGo_exhaust f e4 h h4

/-- C7 witness: two forced transient failures followed by success give
exactly 3 attempts and total sleep 30 = 10 + 10 * 2. -/
theorem claimC7_witness :
    ((2 : ℕ) < 5 ∧
      (fun k => if k < 2 then RetryOutcome.apiErr (7 : ℕ) else RetryOutcome.ok (3 : ℕ)) 2 =
        RetryOutcome.ok 3) ∧
    updateAllDataRetry
        (fun k => if k < 2 then RetryOutcome.apiErr (7 : ℕ) else RetryOutcome.ok (3 : ℕ)) =
      (Except.ok 3, 3, 30) ∧ 10 + 10 * 2 ≤ 30 := by
  refine ⟨⟨by norm_num, by norm_num⟩, ?_, by norm_num⟩
  have h := claimC7_retry.1 ℕ ℕ
    (fun k => if k < 2 then RetryOutcome.apiErr (7 : ℕ) else RetryOutcome.ok (3 : ℕ))
    3 2 (by norm_num)
    (fun i hi => ⟨7, by interval_cases i <;> rfl⟩) (by norm_num)
  simpa using h
